import Mathlib

/-!
Verification development for the Aleutian RAG engine (services/rag_engine).

Each definition is a shallow embedding of a function of the Python source,
named after it.  Machine-level details that the claims do not touch
(HTTP transport, tracing spans, logging) are elided; control flow, state
updates and string manipulation are translated faithfully.  Python `float`
is modelled as `ℚ` and Python strings as Lean `String` (code points).
-/

namespace AleutianRAG

/-- Characters treated as whitespace by Python's `str.strip()` (ASCII part),
which coincides with the `\s` class of the `re` module on ASCII input. -/
def isPyWs (c : Char) : Bool :=
  c = ' ' || c = '\t' || c = '\n' || c = '\r' || c = '\x0b' || c = '\x0c'

/-- List form of Python `str.strip()`. -/
def pyStripList (cs : List Char) : List Char :=
  ((cs.dropWhile isPyWs).reverse.dropWhile isPyWs).reverse

/-- Python `str.strip()`. -/
def pyStrip (s : String) : String := ⟨pyStripList s.toList⟩

/-- Python slicing `s[:n]` on strings (by code point). -/
def pyTake (n : Nat) (s : String) : String := ⟨s.toList.take n⟩

/-- Python `str.lower()` (ASCII case folding, which is all the source
relies on). -/
def pyLower (s : String) : String := ⟨s.toList.map Char.toLower⟩

/-- The structured verdict returned by the skeptic agent
(`datatypes/verified.py`, class `SkepticAuditResult`). -/
structure SkepticAuditResult where
  is_verified : Bool
  reasoning : String
  hallucinations : List String
  missing_evidence : List String
deriving Repr, DecidableEq

/-- State of the verification loop
(`datatypes/verified.py`, class `VerificationState`). -/
structure VerificationState where
  current_answer : String
  attempt_count : Nat := 0
  is_final_verified : Bool := false
  history : List SkepticAuditResult := []
deriving Repr, DecidableEq

/-- `VerificationState.add_audit`: append the audit and bump the counter. -/
def VerificationState.add_audit (s : VerificationState) (a : SkepticAuditResult) :
    VerificationState :=
  { s with history := s.history ++ [a], attempt_count := s.attempt_count + 1 }

/-- `VerificationState.mark_verified`. -/
def VerificationState.mark_verified (s : VerificationState) : VerificationState :=
  { s with is_final_verified := true }

/-- Length of the common prefix of two character lists; this is what the
`for i in range(shorter): ... else: break` loop of
`_is_refinement_stalled` computes. -/
def commonLen : List Char → List Char → Nat
  | a :: as, b :: bs => if a = b then commonLen as bs + 1 else 0
  | _, _ => 0

/-- `VerifiedRAGPipeline._is_refinement_stalled` (verified.py):
structural similarity check between the previous and the refined answer.
`STALL_SIMILARITY_THRESHOLD = 0.95`. -/
def isRefinementStalled (old_answer new_answer : String) : Bool :=
  if old_answer = "" || new_answer = "" then false
  else
    let oldN := pyLower (pyStrip old_answer)
    let newN := pyLower (pyStrip new_answer)
    if oldN = newN then true
    else if oldN.length = 0 || newN.length = 0 then false
    else
      let shorter := min oldN.length newN.length
      let longer := max oldN.length newN.length
      if mkRat shorter longer < mkRat 8 10 then false
      else
        let matching := commonLen oldN.toList newN.toList
        decide (mkRat matching longer ≥ mkRat 95 100)

/-- `VerifiedRAGPipeline._validate_refined_answer` (verified.py):
returns `(is_valid, reason)`.  `MIN_ANSWER_LENGTH = 10`. -/
def validateRefinedAnswer (answer original : String) : Bool × String :=
  if answer = "" || pyStrip answer = "" then (false, "empty_answer")
  else if (pyStrip answer).length < 10 then
    (false, "too_short_" ++ toString (pyStrip answer).length ++ "_chars")
  else if isRefinementStalled original answer then (false, "stalled_no_change")
  else (true, "valid")

/-- How the verification loop of `VerifiedRAGPipeline.run` terminated. -/
inductive LoopExit where
  | verified
  | stalled
  | maxAttempts
  | fuelOut
deriving Repr, DecidableEq

/-- Observable result of the verification loop: the final state, the stall
counter, the number of skeptic and refiner LLM calls made, and how the
loop exited. -/
structure LoopResult where
  state : VerificationState
  stallCount : Nat
  skepticCalls : Nat
  refinerCalls : Nat
  exit : LoopExit
deriving Repr, DecidableEq

/-- One-for-one translation of the `while state.attempt_count <
self.max_verification_attempts` loop of `VerifiedRAGPipeline.run`
(verified.py, section D).  `audits k` is the skeptic verdict obtained on
the attempt with 0-based index `k` (the source's `attempt_num = k + 1`);
`refines k` is the refiner output of the same iteration.  `max_stalls = 2`.
The update block at the bottom of the loop body runs whenever
`is_valid or validation_reason != "empty_answer"`, exactly as in the
source — in particular it also runs (and resets `stall_count` to 0) right
after a stall was counted. -/
def verificationLoopGo (maxA : Nat) (audits : Nat → SkepticAuditResult)
    (refines : Nat → String) :
    Nat → VerificationState → Nat → Nat → Nat → LoopResult
  | 0, s, stall, sc, rc => ⟨s, stall, sc, rc, .fuelOut⟩
  | fuel + 1, s, stall, sc, rc =>
    if s.attempt_count < maxA then
      if (audits s.attempt_count).is_verified then
        ⟨(s.add_audit (audits s.attempt_count)).mark_verified, stall, sc + 1, rc, .verified⟩
      else if s.attempt_count + 1 < maxA then
        if (validateRefinedAnswer (refines s.attempt_count) s.current_answer).1 = false ∧
            (validateRefinedAnswer (refines s.attempt_count) s.current_answer).2 =
              "stalled_no_change" ∧
            stall + 1 ≥ 2 then
          ⟨s.add_audit (audits s.attempt_count), stall + 1, sc + 1, rc + 1, .stalled⟩
        else if (validateRefinedAnswer (refines s.attempt_count) s.current_answer).1 = false ∧
            (validateRefinedAnswer (refines s.attempt_count) s.current_answer).2 =
              "empty_answer" then
          verificationLoopGo maxA audits refines fuel
            (s.add_audit (audits s.attempt_count)) stall (sc + 1) (rc + 1)
        else
          verificationLoopGo maxA audits refines fuel
            { s.add_audit (audits s.attempt_count) with
              current_answer := refines s.attempt_count } 0 (sc + 1) (rc + 1)
      else
        verificationLoopGo maxA audits refines fuel
          (s.add_audit (audits s.attempt_count)) stall (sc + 1) rc
    else ⟨s, stall, sc, rc, .maxAttempts⟩

/-- The verification loop of `VerifiedRAGPipeline.run`, started on the
freshly drafted answer: `state = VerificationState(current_answer=...)`,
`stall_count = 0`.  Every iteration appends exactly one audit, so
`maxA + 1` units of fuel always suffice. -/
def runVerificationLoop (maxA : Nat) (audits : Nat → SkepticAuditResult)
    (refines : Nat → String) (initial_answer : String) : LoopResult :=
  verificationLoopGo maxA audits refines (maxA + 1)
    { current_answer := initial_answer } 0 0 0

/-- Invariant carried through `verificationLoopGo`. -/
def stateInv (maxA : Nat) (s : VerificationState) : Prop :=
  s.attempt_count ≤ maxA ∧
  s.attempt_count = s.history.length ∧
  (s.is_final_verified = true →
    (s.history.getLast?).map SkepticAuditResult.is_verified = some true)

theorem getLast_append_singleton (l : List SkepticAuditResult)
    (a : SkepticAuditResult) : (l ++ [a]).getLast? = some a := by
  simp

theorem verificationLoopGo_inv (maxA : Nat) (audits : Nat → SkepticAuditResult)
    (refines : Nat → String) (fuel : Nat) (s : VerificationState)
    (stall sc rc : Nat)
    (hle : s.attempt_count ≤ maxA)
    (hlen : s.attempt_count = s.history.length)
    (hver : s.is_final_verified = false) :
    stateInv maxA (verificationLoopGo maxA audits refines fuel s stall sc rc).state := by
  induction fuel generalizing s stall sc rc with
  | zero =>
    refine ⟨hle, hlen, fun h => ?_⟩
    rw [verificationLoopGo] at h
    simp [hver] at h
  | succ fuel ih =>
    rw [verificationLoopGo]
    by_cases hlt : s.attempt_count < maxA
    · rw [if_pos hlt]
      by_cases hv : (audits s.attempt_count).is_verified = true
      · rw [if_pos hv]
        refine ⟨hlt, ?_, fun _ => ?_⟩
        · simp [VerificationState.add_audit, VerificationState.mark_verified, hlen]
        · show ((s.history ++ [audits s.attempt_count]).getLast?).map
            SkepticAuditResult.is_verified = some true
          rw [getLast_append_singleton]
          simp [hv]
      · rw [if_neg hv]
        by_cases hlt2 : s.attempt_count + 1 < maxA
        · rw [if_pos hlt2]
          by_cases hstall : (validateRefinedAnswer (refines s.attempt_count)
              s.current_answer).1 = false ∧
              (validateRefinedAnswer (refines s.attempt_count) s.current_answer).2 =
                "stalled_no_change" ∧ stall + 1 ≥ 2
          · rw [if_pos hstall]
            refine ⟨hlt, ?_, fun h => ?_⟩
            · simp [VerificationState.add_audit, hlen]
            · simp [VerificationState.add_audit, hver] at h
          · rw [if_neg hstall]
            by_cases hemp : (validateRefinedAnswer (refines s.attempt_count)
                s.current_answer).1 = false ∧
                (validateRefinedAnswer (refines s.attempt_count) s.current_answer).2 =
                  "empty_answer"
            · rw [if_pos hemp]
              exact ih _ _ _ _ hlt2.le
                (by simp [VerificationState.add_audit, hlen]) hver
            · rw [if_neg hemp]
              exact ih _ _ _ _ hlt2.le
                (by simp [VerificationState.add_audit, hlen]) hver
        · rw [if_neg hlt2]
          exact ih _ _ _ _ hlt
            (by simp [VerificationState.add_audit, hlen]) hver
    · rw [if_neg hlt]
      exact ⟨hle, hlen, fun h => by simp [hver] at h⟩

/-- C2: for every completed run of the verification loop the final
`VerificationState` satisfies `attempt_count ≤ max_attempts`,
`attempt_count = |history|`, and `is_final_verified` implies that the last
audit in the history has `is_verified = true`. -/
theorem C2_verification_state_invariants (maxA : Nat)
    (audits : Nat → SkepticAuditResult) (refines : Nat → String)
    (initial_answer : String) :
    (runVerificationLoop maxA audits refines initial_answer).state.attempt_count ≤ maxA ∧
    (runVerificationLoop maxA audits refines initial_answer).state.attempt_count =
      (runVerificationLoop maxA audits refines initial_answer).state.history.length ∧
    ((runVerificationLoop maxA audits refines initial_answer).state.is_final_verified = true →
      ((runVerificationLoop maxA audits refines initial_answer).state.history.getLast?).map
        SkepticAuditResult.is_verified = some true) :=
  verificationLoopGo_inv maxA audits refines (maxA + 1)
    { current_answer := initial_answer } 0 0 0 (Nat.zero_le _) rfl rfl

/-- C2 witness: the invariants evaluated on a concrete two-attempt run. -/
theorem C2_verification_state_invariants_witness :
    (runVerificationLoop 3 (fun k => ⟨k = 1, "r", [], []⟩)
      (fun _ => "a refined answer here") "the initial answer").state.attempt_count ≤ 3 ∧
    (runVerificationLoop 3 (fun k => ⟨k = 1, "r", [], []⟩)
      (fun _ => "a refined answer here") "the initial answer").state.attempt_count =
      (runVerificationLoop 3 (fun k => ⟨k = 1, "r", [], []⟩)
        (fun _ => "a refined answer here") "the initial answer").state.history.length ∧
    ((runVerificationLoop 3 (fun k => ⟨k = 1, "r", [], []⟩)
      (fun _ => "a refined answer here") "the initial answer").state.is_final_verified = true →
      ((runVerificationLoop 3 (fun k => ⟨k = 1, "r", [], []⟩)
        (fun _ => "a refined answer here") "the initial answer").state.history.getLast?).map
        SkepticAuditResult.is_verified = some true) :=
  C2_verification_state_invariants 3 _ _ _

/-- A skeptic verdict that always rejects, for exercising the stall path. -/
def c1Audit : SkepticAuditResult :=
  ⟨false, "claims unsupported", ["claim"], ["evidence"]⟩

/-- Answer used in the stall run; the refiner returns it verbatim every
time, so every refinement is judged `stalled_no_change`. -/
def c1Answer : String := "The sky is green today."

/-- C1: the claim is false on the code.  With `max_attempts = 3`, a skeptic
that always rejects and a refiner whose output is always judged stalled
against its predecessor (here: byte-identical), the loop does NOT exit
after the second stall: the update block at the bottom of the loop body
resets `stall_count` to 0 right after each increment, so `stall_count`
never reaches `max_stalls = 2` and the run continues to `max_attempts`
with three skeptic audits. -/
theorem C1_counterexample :
    validateRefinedAnswer c1Answer c1Answer = (false, "stalled_no_change") ∧
    (runVerificationLoop 3 (fun _ => c1Audit) (fun _ => c1Answer) c1Answer).exit =
      LoopExit.maxAttempts ∧
    (runVerificationLoop 3 (fun _ => c1Audit) (fun _ => c1Answer) c1Answer).state.attempt_count = 3 ∧
    (runVerificationLoop 3 (fun _ => c1Audit) (fun _ => c1Answer) c1Answer).skepticCalls = 3 ∧
    (runVerificationLoop 3 (fun _ => c1Audit) (fun _ => c1Answer) c1Answer).stallCount = 0 := by
  refine ⟨?_, ?_, ?_, ?_, ?_⟩ <;> decide

/-! ### Code Buddy circuit breaker (`pipelines/agent.py`) -/

/-- Process-global circuit-breaker state of agent.py:
`_code_buddy_failures` and `_code_buddy_circuit_open_until`.
`time.time()` values are modelled as whole seconds (`ℤ`); the logic only
ever adds the 60 s recovery timeout and compares timestamps. -/
structure CodeBuddyState where
  failures : Nat
  openUntil : Int
deriving Repr, DecidableEq

/-- `_CODE_BUDDY_FAILURE_THRESHOLD = 5`. -/
def codeBuddyFailureThreshold : Nat := 5

/-- `_CODE_BUDDY_RECOVERY_TIMEOUT = 60.0`. -/
def codeBuddyRecoveryTimeout : Int := 60

/-- `_is_circuit_open` (agent.py). -/
def isCircuitOpen (st : CodeBuddyState) (now : Int) : Bool :=
  st.openUntil > 0 && now < st.openUntil

/-- `_record_code_buddy_failure` (agent.py). -/
def recordCodeBuddyFailure (st : CodeBuddyState) (now : Int) : CodeBuddyState :=
  if st.failures + 1 ≥ codeBuddyFailureThreshold then
    ⟨st.failures + 1, now + codeBuddyRecoveryTimeout⟩
  else
    ⟨st.failures + 1, st.openUntil⟩

/-- `_record_code_buddy_success` (agent.py): reset counter, close circuit. -/
def recordCodeBuddySuccess : CodeBuddyState := ⟨0, 0⟩

/-- Outcome of one HTTP attempt against the Code Buddy backend. -/
inductive NetOutcome where
  | ok (resp : String)
  | httpError (status : Nat)
  | netError
deriving Repr, DecidableEq

/-- Observable reply of `call_code_buddy`. -/
inductive CodeBuddyReply where
  | circuitFallback
  | success (resp : String)
  | httpErrorReply (status : Nat)
  | connectFailedReply
  | exhausted
deriving Repr, DecidableEq

/-- The `for attempt in range(max_retries)` loop of `call_code_buddy`
(agent.py): `outcomes i` is what the network does on the i-th attempt;
the third component counts network requests actually made.
A 200 response resets the breaker (`_record_code_buddy_success`); a
non-200 response records a failure and returns the mapped error without
retrying; a transport error records a failure and retries (up to 3
attempts in total), the final transport failure returning the
connection-failed suggestion. -/
def codeBuddyAttemptLoop (now : Int) (outcomes : Nat → NetOutcome) :
    Nat → Nat → CodeBuddyState → Nat → CodeBuddyReply × CodeBuddyState × Nat
  | 0, _, st, n => (.exhausted, st, n)
  | remaining + 1, idx, st, n =>
    match outcomes idx with
    | .ok r => (.success r, recordCodeBuddySuccess, n + 1)
    | .httpError code => (.httpErrorReply code, recordCodeBuddyFailure st now, n + 1)
    | .netError =>
      if remaining > 0 then
        codeBuddyAttemptLoop now outcomes remaining (idx + 1)
          (recordCodeBuddyFailure st now) (n + 1)
      else
        (.connectFailedReply, recordCodeBuddyFailure st now, n + 1)

/-- `call_code_buddy` (agent.py): short-circuit on an open breaker,
otherwise run the retry loop (`max_retries = 3`). -/
def callCodeBuddy (st : CodeBuddyState) (now : Int) (outcomes : Nat → NetOutcome) :
    CodeBuddyReply × CodeBuddyState × Nat :=
  if isCircuitOpen st now then (.circuitFallback, st, 0)
  else codeBuddyAttemptLoop now outcomes 3 0 st 0

theorem codeBuddyAttemptLoop_attempts (now : Int) (outcomes : Nat → NetOutcome)
    (remaining idx n : Nat) (st : CodeBuddyState) (h : 1 ≤ remaining) :
    n + 1 ≤ (codeBuddyAttemptLoop now outcomes remaining idx st n).2.2 := by
  induction remaining generalizing idx st n with
  | zero => omega
  | succ r ih =>
    rw [codeBuddyAttemptLoop]
    cases houtcome : outcomes idx with
    | ok resp => simp
    | httpError code => simp
    | netError =>
      simp only
      by_cases hr : r > 0
      · rw [if_pos hr]
        have := ih (idx + 1) (n + 1) (recordCodeBuddyFailure st now) hr
        omega
      · rw [if_neg hr]

/-- C9: behaviour of the Code Buddy circuit breaker.  Once the failure
counter reaches the threshold of 5, the breaker opens until `now + 60`:
every call strictly before that deadline returns the structured fallback
immediately with zero network requests and an unchanged state; any call
at or after the deadline makes at least one network request; if that
first request returns HTTP 200 the reply is the parsed response, the
failure counter is reset to 0 and the circuit is closed; and in general
every call whose reply is a success leaves the breaker reset and
closed. -/
theorem C9_circuit_breaker (st : CodeBuddyState) (now tLater : Int)
    (outcomes : Nat → NetOutcome) (r : String)
    (hfail : st.failures + 1 ≥ codeBuddyFailureThreshold) (hnow : 0 ≤ now) :
    (recordCodeBuddyFailure st now).openUntil = now + 60 ∧
    (∀ t : Int, t < now + 60 →
      callCodeBuddy (recordCodeBuddyFailure st now) t outcomes =
        (.circuitFallback, recordCodeBuddyFailure st now, 0)) ∧
    (now + 60 ≤ tLater →
      1 ≤ (callCodeBuddy (recordCodeBuddyFailure st now) tLater outcomes).2.2) ∧
    (now + 60 ≤ tLater → outcomes 0 = .ok r →
      callCodeBuddy (recordCodeBuddyFailure st now) tLater outcomes =
        (.success r, ⟨0, 0⟩, 1)) ∧
    (∀ (st2 : CodeBuddyState) (t2 : Int) (r2 : String),
      (callCodeBuddy st2 t2 outcomes).1 = .success r2 →
      (callCodeBuddy st2 t2 outcomes).2.1 = ⟨0, 0⟩) := by
  have hopen : recordCodeBuddyFailure st now = ⟨st.failures + 1, now + 60⟩ := by
    rw [recordCodeBuddyFailure, if_pos hfail]; rfl
  have hloop : ∀ (rem : Nat) (nw : Int) (idx n : Nat) (st2 : CodeBuddyState) (r2 : String),
      (codeBuddyAttemptLoop nw outcomes rem idx st2 n).1 = .success r2 →
      (codeBuddyAttemptLoop nw outcomes rem idx st2 n).2.1 = ⟨0, 0⟩ := by
    intro rem
    induction rem with
    | zero => intro nw idx n st2 r2 h; exact absurd h (by rw [codeBuddyAttemptLoop]; simp)
    | succ rr ih =>
      intro nw idx n st2 r2 h
      rw [codeBuddyAttemptLoop] at h ⊢
      cases houtcome : outcomes idx with
      | ok resp => rfl
      | httpError code => rw [houtcome] at h; exact absurd h (by simp)
      | netError =>
        rw [houtcome] at h
        simp only at h ⊢
        by_cases hr : rr > 0
        · rw [if_pos hr] at h ⊢
          exact ih _ _ _ _ _ h
        · rw [if_neg hr] at h
          exact absurd h (by simp)
  have hgen : ∀ (st2 : CodeBuddyState) (t2 : Int) (r2 : String),
      (callCodeBuddy st2 t2 outcomes).1 = .success r2 →
      (callCodeBuddy st2 t2 outcomes).2.1 = ⟨0, 0⟩ := by
    intro st2 t2 r2 h
    rw [callCodeBuddy] at h ⊢
    by_cases hc : isCircuitOpen st2 t2 = true
    · rw [if_pos hc] at h
      exact absurd h (by simp)
    · rw [if_neg hc] at h ⊢
      exact hloop 3 t2 0 0 st2 r2 h
  refine ⟨by rw [hopen], fun t ht => ?_, fun hlater => ?_, fun hlater hok => ?_, hgen⟩
  · rw [callCodeBuddy, if_pos ?_]
    rw [hopen, isCircuitOpen]
    simp only [decide_eq_true_eq, Bool.and_eq_true]
    exact ⟨by simpa using by omega, by simpa using by omega⟩
  · rw [callCodeBuddy, if_neg ?_]
    · exact codeBuddyAttemptLoop_attempts _ _ 3 0 0 _ (by omega)
    · rw [hopen, isCircuitOpen]
      simp only [Bool.and_eq_true, decide_eq_true_eq, not_and]
      intro _
      omega
  · rw [callCodeBuddy, if_neg ?_]
    · rw [codeBuddyAttemptLoop, hok]
      rfl
    · rw [hopen, isCircuitOpen]
      simp only [Bool.and_eq_true, decide_eq_true_eq, not_and]
      intro _
      omega

/-- C9 witness: the breaker evaluated on a concrete trace — 5th failure at
time 0 opens the breaker until 60; a call at time 30 short-circuits with
no network request; a call at time 60 goes to the network; a 200 response
there resets the counter and closes the circuit. -/
theorem C9_circuit_breaker_witness :
    (recordCodeBuddyFailure ⟨4, 0⟩ 0).openUntil = 0 + 60 ∧
    callCodeBuddy (recordCodeBuddyFailure ⟨4, 0⟩ 0) 30 (fun _ => .ok "x") =
      (.circuitFallback, recordCodeBuddyFailure ⟨4, 0⟩ 0, 0) ∧
    1 ≤ (callCodeBuddy (recordCodeBuddyFailure ⟨4, 0⟩ 0) 60 (fun _ => .ok "x")).2.2 ∧
    callCodeBuddy (recordCodeBuddyFailure ⟨4, 0⟩ 0) 60 (fun _ => .ok "x") =
      (.success "x", ⟨0, 0⟩, 1) := by
  obtain ⟨h1, h2, h3, h4, -⟩ :=
    C9_circuit_breaker ⟨4, 0⟩ 0 60 (fun _ => .ok "x") "x" (by decide) (by decide)
  exact ⟨h1, h2 30 (by decide), h3 (by decide), h4 (by decide) rfl⟩

/-! ### Agent filesystem tool path confinement (`pipelines/agent.py`) -/

/-- Boolean list prefix test (first argument is the candidate prefix). -/
def listIsPre : List Char → List Char → Bool
  | [], _ => true
  | _, [] => false
  | a :: as, b :: bs => a = b && listIsPre as bs

/-- Python `str.startswith` (by code point). -/
def pyStartsWith (s pat : String) : Bool := listIsPre pat.toList s.toList

/-- Python `str.endswith` (by code point). -/
def pyEndsWith (s pat : String) : Bool := listIsPre pat.toList.reverse s.toList.reverse

/-- Split a character list at every occurrence of `sep`, like Python
`str.split(sep)` for a one-character separator. -/
def splitOnCharGo (sep : Char) : List Char → List Char → List (List Char)
  | [], acc => [acc.reverse]
  | c :: rest, acc =>
    if c = sep then acc.reverse :: splitOnCharGo sep rest []
    else splitOnCharGo sep rest (c :: acc)

/-- Join path components with `/`. -/
def joinSlash : List (List Char) → List Char
  | [] => []
  | [x] => x
  | x :: y :: xs => x ++ '/' :: joinSlash (y :: xs)

/-- `posixpath.normpath` (CPython): collapse repeated separators, drop
`.` components and resolve `..` components, preserving the special
exactly-two-leading-slashes case. -/
def normpath (path : String) : String :=
  if path = "" then "."
  else
    let initialSlashes : Nat :=
      if pyStartsWith path "/" then
        if pyStartsWith path "//" && ! pyStartsWith path "///" then 2 else 1
      else 0
    let comps := splitOnCharGo '/' path.toList []
    let newComps := comps.foldl (fun acc comp =>
      if comp = [] || comp = ['.'] then acc
      else if comp ≠ ['.', '.'] || (initialSlashes = 0 && acc = []) ||
          (acc ≠ [] && acc.getLast? = some ['.', '.']) then acc ++ [comp]
      else if acc ≠ [] then acc.dropLast
      else acc) []
    let p : List Char := List.replicate initialSlashes '/' ++ joinSlash newComps
    if p = [] then "." else ⟨p⟩

/-- `posixpath.join` for two components (all `_execute_tool` needs). -/
def osPathJoin (a b : String) : String :=
  if pyStartsWith b "/" then b
  else if a = "" || pyEndsWith a "/" then a ++ b
  else a ++ "/" ++ b

/-- The path check of the `list_files` / `read_file` branch of
`AgentPipeline._execute_tool` (agent.py):
`safe_path = os.path.normpath(os.path.join(self.project_root, rel_path))`,
access granted iff `safe_path.startswith(self.project_root)`; `none`
models the "Error: Access denied (Path traversal attempt)" return.
In the source `self.project_root = "/app/codebase"`. -/
def executeFileToolPath (project_root rel_path : String) : Option String :=
  let safe := normpath (osPathJoin project_root rel_path)
  if pyStartsWith safe project_root then some safe else none

/-- Spec-side notion used by the claim: `p` is a descendant of `root`. -/
def isDescendantOf (p root : String) : Bool :=
  p = root || pyStartsWith p (root ++ "/")

/-- C6: the claim is false on the code.  The tool does access the
normalization of `project_root` joined with `p`, but grants access by a
plain string-prefix test against the root, so a sibling directory whose
name extends the root's last component — reached here via `..` — is
granted even though it is not a descendant of `/app/codebase`.  (Genuine
escapes whose normalized path does not extend the root string, such as
`../../etc/passwd`, are denied, which is why the flaw is limited to
root-prefix siblings.) -/
theorem C6_counterexample :
    executeFileToolPath "/app/codebase" "../codebaseX/secret.txt" =
      some "/app/codebaseX/secret.txt" ∧
    isDescendantOf "/app/codebaseX/secret.txt" "/app/codebase" = false ∧
    executeFileToolPath "/app/codebase" "../../etc/passwd" = none := by
  refine ⟨?_, ?_, ?_⟩ <;> decide

/-! ### Provider wire payloads (`pipelines/base.py`, `_call_llm`) -/

/-- JSON-like values of an outgoing wire payload.  Python ints and floats
are kept apart (`pint` / `pnum`); `pnull` is JSON `null` (Python `None`). -/
inductive PVal where
  | pnull
  | pbool (b : Bool)
  | pnum (q : ℚ)
  | pint (n : Int)
  | pstr (s : String)
  | plist (xs : List PVal)
  | pdict (kvs : List (String × PVal))

/-- Key lookup in a `pdict` payload (first occurrence; the builders below
never repeat a key). -/
def pvalGet : PVal → String → Option PVal
  | .pdict kvs, k => (kvs.find? (fun kv => kv.1 == k)).map (fun kv => kv.2)
  | _, _ => none

/-- The `default_llm_params` dictionary of `BaseRAGPipeline.__init__`
(keys `temperature`, `max_tokens`, `top_k`, `top_p`, `stop`), after the
per-call `kwargs` update. -/
structure GenParams where
  temperature : ℚ
  max_tokens : Int
  top_k : Int
  top_p : ℚ
  stop : List String

/-- The slice of `BaseRAGPipeline` instance configuration that
`_call_llm` consults when shaping a request. -/
structure LLMConfig where
  llm_backend : String
  llm_url : String
  anthropic_api_key : Option String
  openai_api_key : Option String
  enable_thinking : Bool
  thinking_budget : Int
  claude_model : String
  ollama_model : String
  openai_model : String

/-- Request shaping of `BaseRAGPipeline._call_llm` (base.py, lines
583-688): the branch on `self.llm_backend` that builds `api_url` and
`payload`.  `temperature = some t` is the explicit call-site temperature,
which overwrites `generation_params["temperature"]` before any branch
runs.  Raised `ValueError`s are modelled as `.error`. -/
def buildLLMPayload (cfg : LLMConfig) (defaults : GenParams) (prompt : String)
    (model_override : Option String) (temperature : Option ℚ) :
    Except String (String × PVal) :=
  let gp := match temperature with
    | some t => { defaults with temperature := t }
    | none => defaults
  if cfg.llm_backend = "claude" ∨ cfg.llm_backend = "anthropic" then
    if cfg.anthropic_api_key = none then
      .error "Anthropic API key secret not configured"
    else
      let effective_model := model_override.getD cfg.claude_model
      if cfg.enable_thinking then
        .ok ("https://api.anthropic.com/v1/messages", .pdict
          [("model", .pstr effective_model),
           ("max_tokens", .pint gp.max_tokens),
           ("messages", .plist [.pdict [("role", .pstr "user"), ("content", .pstr prompt)]]),
           ("thinking", .pdict [("type", .pstr "enabled"),
                                ("budget_tokens", .pint cfg.thinking_budget)]),
           ("temperature", .pnull)])
      else
        .ok ("https://api.anthropic.com/v1/messages", .pdict
          [("model", .pstr effective_model),
           ("max_tokens", .pint gp.max_tokens),
           ("messages", .plist [.pdict [("role", .pstr "user"), ("content", .pstr prompt)]]),
           ("temperature", .pnum gp.temperature)])
  else if cfg.llm_backend = "ollama" then
    .ok (cfg.llm_url ++ "/api/generate", .pdict
      [("model", .pstr (model_override.getD cfg.ollama_model)),
       ("prompt", .pstr prompt),
       ("stream", .pbool false),
       ("options", .pdict
         [("temperature", .pnum gp.temperature),
          ("num_predict", .pint gp.max_tokens),
          ("top_k", .pint gp.top_k),
          ("top_p", .pnum gp.top_p),
          ("stop", .plist (gp.stop.map PVal.pstr))])])
  else if cfg.llm_backend = "openai" then
    if cfg.openai_api_key = none then
      .error "OpenAI API key secret not configured"
    else
      .ok (cfg.llm_url ++ "/chat/completions", .pdict
        [("model", .pstr (model_override.getD cfg.openai_model)),
         ("messages", .plist [.pdict [("role", .pstr "user"), ("content", .pstr prompt)]]),
         ("temperature", .pnum gp.temperature),
         ("max_tokens", .pint gp.max_tokens),
         ("top_p", .pnum gp.top_p),
         ("stop", .plist (gp.stop.map PVal.pstr))])
  else if cfg.llm_backend = "local" then
    match model_override with
    | some m =>
      .ok (cfg.llm_url ++ "/completion", .pdict
        [("prompt", .pstr prompt),
         ("n_predict", .pint gp.max_tokens),
         ("temperature", .pnum gp.temperature),
         ("top_k", .pint gp.top_k),
         ("top_p", .pnum gp.top_p),
         ("stop", .plist (gp.stop.map PVal.pstr)),
         ("model", .pstr m)])
    | none =>
      .ok (cfg.llm_url ++ "/completion", .pdict
        [("prompt", .pstr prompt),
         ("n_predict", .pint gp.max_tokens),
         ("temperature", .pnum gp.temperature),
         ("top_k", .pint gp.top_k),
         ("top_p", .pnum gp.top_p),
         ("stop", .plist (gp.stop.map PVal.pstr))])
  else .error ("Unsupported LLM backend in RAG engine: " ++ cfg.llm_backend)

/-- C4: with an explicit call-site temperature `t`, every provider branch
threads `t` into its wire payload — at the top level for openai / local /
anthropic-without-thinking, inside the `options` block for ollama — while
the anthropic branch with thinking mode enabled sends `temperature: null`
and includes the thinking budget. -/
theorem C4_temperature_threading (cfg : LLMConfig) (defaults : GenParams)
    (prompt : String) (mo : Option String) (t : ℚ) (url : String) (payload : PVal)
    (h : buildLLMPayload cfg defaults prompt mo (some t) = .ok (url, payload)) :
    (cfg.llm_backend = "ollama" →
      (pvalGet payload "options").bind (fun o => pvalGet o "temperature") =
        some (.pnum t)) ∧
    (cfg.llm_backend = "openai" → pvalGet payload "temperature" = some (.pnum t)) ∧
    (cfg.llm_backend = "local" → pvalGet payload "temperature" = some (.pnum t)) ∧
    ((cfg.llm_backend = "claude" ∨ cfg.llm_backend = "anthropic") →
      cfg.enable_thinking = false → pvalGet payload "temperature" = some (.pnum t)) ∧
    ((cfg.llm_backend = "claude" ∨ cfg.llm_backend = "anthropic") →
      cfg.enable_thinking = true →
      pvalGet payload "temperature" = some .pnull ∧
      (pvalGet payload "thinking").bind (fun th => pvalGet th "budget_tokens") =
        some (.pint cfg.thinking_budget)) := by
  rw [buildLLMPayload.eq_def] at h
  refine ⟨fun hb => ?_, fun hb => ?_, fun hb => ?_, fun hb hth => ?_, fun hb hth => ?_⟩
  · simp only [hb] at h
    obtain ⟨rfl, rfl⟩ := h
    rfl
  · simp only [hb] at h
    rcases hk : cfg.openai_api_key with _ | k
    · rw [hk] at h
      simp at h
    · rw [hk] at h
      obtain ⟨rfl, rfl⟩ := h
      rfl
  · simp only [hb] at h
    rcases hmo : mo with _ | m
    · rw [hmo] at h
      obtain ⟨rfl, rfl⟩ := h
      rfl
    · rw [hmo] at h
      obtain ⟨rfl, rfl⟩ := h
      rfl
  · rw [if_pos hb] at h
    rcases hk : cfg.anthropic_api_key with _ | k
    · rw [hk] at h
      simp at h
    · rw [hk, hth] at h
      obtain ⟨rfl, rfl⟩ := h
      rfl
  · rw [if_pos hb] at h
    rcases hk : cfg.anthropic_api_key with _ | k
    · rw [hk] at h
      simp at h
    · rw [hk, hth] at h
      obtain ⟨rfl, rfl⟩ := h
      exact ⟨rfl, rfl⟩

/-- C4 witness: concrete payloads, one per provider branch, each carrying
the explicit call-site temperature 0.6 (and the null temperature plus a
1024-token thinking budget for anthropic with thinking enabled). -/
theorem C4_temperature_threading_witness :
    (((buildLLMPayload ⟨"ollama", "http://llm", none, none, false, 1024, "c", "m", "o"⟩
        ⟨mkRat 5 10, 1024, 40, mkRat 9 10, []⟩ "p" none (some (mkRat 6 10))).toOption.map
        (fun up => (pvalGet up.2 "options").bind (fun o => pvalGet o "temperature"))) =
      some (some (.pnum (mkRat 6 10)))) ∧
    (((buildLLMPayload ⟨"anthropic", "http://llm", some "k", none, true, 1024, "c", "m", "o"⟩
        ⟨mkRat 5 10, 1024, 40, mkRat 9 10, []⟩ "p" none (some (mkRat 6 10))).toOption.map
        (fun up => pvalGet up.2 "temperature")) = some (some .pnull)) := by
  constructor
  · have h := C4_temperature_threading
      ⟨"ollama", "http://llm", none, none, false, 1024, "c", "m", "o"⟩
      ⟨mkRat 5 10, 1024, 40, mkRat 9 10, []⟩ "p" none (mkRat 6 10)
      "http://llm/api/generate"
      (.pdict [("model", .pstr "m"), ("prompt", .pstr "p"), ("stream", .pbool false),
        ("options", .pdict [("temperature", .pnum (mkRat 6 10)), ("num_predict", .pint 1024),
          ("top_k", .pint 40), ("top_p", .pnum (mkRat 9 10)), ("stop", .plist [])])])
      rfl
    exact congrArg some (h.1 rfl)
  · have h := C4_temperature_threading
      ⟨"anthropic", "http://llm", some "k", none, true, 1024, "c", "m", "o"⟩
      ⟨mkRat 5 10, 1024, 40, mkRat 9 10, []⟩ "p" none (mkRat 6 10)
      "https://api.anthropic.com/v1/messages"
      (.pdict [("model", .pstr "c"), ("max_tokens", .pint 1024),
        ("messages", .plist [.pdict [("role", .pstr "user"), ("content", .pstr "p")]]),
        ("thinking", .pdict [("type", .pstr "enabled"), ("budget_tokens", .pint 1024)]),
        ("temperature", .pnull)])
      rfl
    exact congrArg some ((h.2.2.2.2 (Or.inr rfl) rfl).1)

/-! ### JSON values and parsing (`json.loads` as used by `_extract_json`)

`json.loads` is modelled by a standard RFC 8259 recursive-descent
JSON reader.  Numbers keep their lexeme (so `1e1` and `10` stay distinct
values, which is harmless for the claims); a lone `\uXXXX` surrogate
escape, invalid as a scalar, falls back to `Char.ofNat`'s default; the
nonstandard `NaN` / `Infinity` extensions of Python's reader are not
modelled. -/

/-- JSON abstract values. -/
inductive Json where
  | jnull
  | jbool (b : Bool)
  | jnum (lexeme : String)
  | jstr (s : String)
  | jarr (items : List Json)
  | jobj (fields : List (String × Json))

/-- JSON inter-token whitespace (RFC 8259). -/
def isJsonWs (c : Char) : Bool :=
  c = ' ' || c = '\t' || c = '\n' || c = '\r'

/-- Drop leading JSON whitespace. -/
def skipWs (cs : List Char) : List Char := cs.dropWhile isJsonWs

/-- Value of one hex digit. -/
def hexVal (c : Char) : Option Nat :=
  if c.isDigit then some (c.toNat - 48)
  else if 'a' ≤ c && c ≤ 'f' then some (c.toNat - 87)
  else if 'A' ≤ c && c ≤ 'F' then some (c.toNat - 55)
  else none

/-- Read a JSON string body (after the opening quote) up to the closing
quote, decoding escapes; raw control characters are rejected. -/
def readJStr : Nat → List Char → List Char → Option (String × List Char)
  | 0, _, _ => none
  | fuel + 1, acc, cs =>
    match cs with
    | [] => none
    | '"' :: rest => some (⟨acc.reverse⟩, rest)
    | '\\' :: rest =>
      match rest with
      | '"' :: r => readJStr fuel ('"' :: acc) r
      | '\\' :: r => readJStr fuel ('\\' :: acc) r
      | '/' :: r => readJStr fuel ('/' :: acc) r
      | 'b' :: r => readJStr fuel ('\x08' :: acc) r
      | 'f' :: r => readJStr fuel ('\x0c' :: acc) r
      | 'n' :: r => readJStr fuel ('\n' :: acc) r
      | 'r' :: r => readJStr fuel ('\r' :: acc) r
      | 't' :: r => readJStr fuel ('\t' :: acc) r
      | 'u' :: h1 :: h2 :: h3 :: h4 :: r =>
        match hexVal h1, hexVal h2, hexVal h3, hexVal h4 with
        | some a, some b, some c, some d =>
          readJStr fuel (Char.ofNat (((a * 16 + b) * 16 + c) * 16 + d) :: acc) r
        | _, _, _, _ => none
      | _ => none
    | c :: rest => if c.toNat < 32 then none else readJStr fuel (c :: acc) rest

/-- Read the optional fraction part of a JSON number. -/
def readJFrac : List Char → Option (List Char × List Char)
  | '.' :: r =>
    let ds := r.takeWhile Char.isDigit
    if ds = [] then none else some ('.' :: ds, r.dropWhile Char.isDigit)
  | cs => some ([], cs)

/-- Read the optional exponent part of a JSON number. -/
def readJExp : List Char → Option (List Char × List Char)
  | c :: r =>
    if c = 'e' || c = 'E' then
      match r with
      | '+' :: r2 =>
        let ds := r2.takeWhile Char.isDigit
        if ds = [] then none
        else some (c :: '+' :: ds, r2.dropWhile Char.isDigit)
      | '-' :: r2 =>
        let ds := r2.takeWhile Char.isDigit
        if ds = [] then none
        else some (c :: '-' :: ds, r2.dropWhile Char.isDigit)
      | _ =>
        let ds := r.takeWhile Char.isDigit
        if ds = [] then none
        else some (c :: ds, r.dropWhile Char.isDigit)
    else some ([], c :: r)
  | [] => some ([], [])

/-- Read a JSON number lexeme (`-?(0|[1-9][0-9]*)(\.[0-9]+)?([eE][-+]?[0-9]+)?`). -/
def readJNum (cs : List Char) : Option (String × List Char) :=
  match cs with
  | '-' :: cs1 =>
    let ip := cs1.takeWhile Char.isDigit
    let cs2 := cs1.dropWhile Char.isDigit
    if ip = [] then none
    else if ip.length > 1 && ip.headD '0' = '0' then none
    else
      match readJFrac cs2 with
      | none => none
      | some (fp, cs3) =>
        match readJExp cs3 with
        | none => none
        | some (ep, cs4) => some (⟨'-' :: (ip ++ fp ++ ep)⟩, cs4)
  | _ =>
    let ip := cs.takeWhile Char.isDigit
    let cs2 := cs.dropWhile Char.isDigit
    if ip = [] then none
    else if ip.length > 1 && ip.headD '0' = '0' then none
    else
      match readJFrac cs2 with
      | none => none
      | some (fp, cs3) =>
        match readJExp cs3 with
        | none => none
        | some (ep, cs4) => some (⟨ip ++ fp ++ ep⟩, cs4)

mutual

/-- Read one JSON value starting at the head of the input (no leading
whitespace).  Fuel-indexed; `2·|input| + 2` fuel always suffices. -/
def readJValue : Nat → List Char → Option (Json × List Char)
  | 0, _ => none
  | fuel + 1, cs =>
    match cs with
    | 'n' :: 'u' :: 'l' :: 'l' :: r => some (.jnull, r)
    | 't' :: 'r' :: 'u' :: 'e' :: r => some (.jbool true, r)
    | 'f' :: 'a' :: 'l' :: 's' :: 'e' :: r => some (.jbool false, r)
    | '"' :: r =>
      match readJStr (r.length + 1) [] r with
      | some (s, r2) => some (.jstr s, r2)
      | none => none
    | '[' :: r =>
      match skipWs r with
      | ']' :: r2 => some (.jarr [], r2)
      | r1 =>
        match readJItems fuel r1 with
        | some (items, r2) => some (.jarr items, r2)
        | none => none
    | '{' :: r =>
      match skipWs r with
      | '}' :: r2 => some (.jobj [], r2)
      | r1 =>
        match readJFields fuel r1 with
        | some (fields, r2) => some (.jobj fields, r2)
        | none => none
    | _ =>
      match readJNum cs with
      | some (lex, r) => some (.jnum lex, r)
      | none => none

/-- Read the comma-separated elements of a non-empty JSON array, up to
and including the closing bracket. -/
def readJItems : Nat → List Char → Option (List Json × List Char)
  | 0, _ => none
  | fuel + 1, cs =>
    match readJValue fuel cs with
    | none => none
    | some (v, r) =>
      match skipWs r with
      | ',' :: r2 =>
        match readJItems fuel (skipWs r2) with
        | some (vs, r3) => some (v :: vs, r3)
        | none => none
      | ']' :: r2 => some ([v], r2)
      | _ => none

/-- Read the comma-separated members of a non-empty JSON object, up to
and including the closing brace. -/
def readJFields : Nat → List Char → Option (List (String × Json) × List Char)
  | 0, _ => none
  | fuel + 1, cs =>
    match cs with
    | '"' :: r =>
      match readJStr (r.length + 1) [] r with
      | none => none
      | some (k, r2) =>
        match skipWs r2 with
        | ':' :: r3 =>
          match readJValue fuel (skipWs r3) with
          | none => none
          | some (v, r4) =>
            match skipWs r4 with
            | ',' :: r5 =>
              match readJFields fuel (skipWs r5) with
              | some (fs, r6) => some ((k, v) :: fs, r6)
              | none => none
            | '}' :: r5 => some ([(k, v)], r5)
            | _ => none
        | _ => none
    | _ => none

end

/-- `json.loads`: parse a complete JSON document (leading and trailing
whitespace allowed, nothing else may remain). -/
def parseJson (s : String) : Option Json :=
  match readJValue (2 * s.toList.length + 2) (skipWs s.toList) with
  | some (v, rest) => if skipWs rest = [] then some v else none
  | none => none

/-! ### `VerifiedRAGPipeline._extract_json` (verified.py) -/

/-- Case-insensitive prefix test (first argument is the pattern). -/
def listIsPreCI : List Char → List Char → Bool
  | [], _ => true
  | _, [] => false
  | p :: ps, c :: cs => p.toLower = c.toLower && listIsPreCI ps cs

/-- Suffix of the text right after the first (case-insensitive)
occurrence of `pat`, if any. -/
def findSubCI (pat : List Char) : Nat → List Char → Option (List Char)
  | 0, _ => none
  | fuel + 1, cs =>
    if listIsPreCI pat cs then some (cs.drop pat.length)
    else
      match cs with
      | [] => none
      | _ :: rest => findSubCI pat fuel rest

/-- Characters strictly before the first occurrence of `pat`, if any. -/
def takeUntilSub (pat : List Char) : Nat → List Char → Option (List Char)
  | 0, _ => none
  | fuel + 1, cs =>
    if listIsPreCI pat cs then some []
    else
      match cs with
      | [] => none
      | c :: rest => (takeUntilSub pat fuel rest).map (c :: ·)

/-- Content of the first fenced block opened by `marker` and closed by
three backticks: the semantics of
`re.search(r'```json\s*([\s\S]*?)\s*```', text, re.IGNORECASE)` up to the
strip that the caller applies to the captured group. -/
def mdBlock (marker : List Char) (text : List Char) : Option (List Char) :=
  match findSubCI marker (text.length + 1) text with
  | none => none
  | some afterStart => takeUntilSub ("```".toList) (afterStart.length + 1) afterStart

/-- Strategy 2 of `_extract_json`: markdown code blocks, the `json`-tagged
pattern first, then the generic one; each candidate is stripped, parsed
and accepted only if it is a JSON object. -/
def extractStrategy2 (text : List Char) : Option (List (String × Json) × String) :=
  match
    (match mdBlock ("```json".toList) text with
     | none => none
     | some mid =>
       match parseJson (pyStrip ⟨mid⟩) with
       | some (.jobj fields) => some fields
       | _ => none)
  with
  | some fields => some (fields, "markdown_json")
  | none =>
    match mdBlock ("```".toList) text with
    | none => none
    | some mid =>
      match parseJson (pyStrip ⟨mid⟩) with
      | some (.jobj fields) => some (fields, "markdown_generic")
      | _ => none

/-- Strategy 3 of `_extract_json`: scan left to right tracking brace
depth; at each balanced close try to parse the candidate slice; on a
parse error reset `start` and `depth` and keep scanning (on a successful
parse of a non-object, Python falls through without resetting). -/
def balancedScan (text : List Char) :
    Nat → Nat → Int → Option Nat → Option (List (String × Json))
  | 0, _, _, _ => none
  | fuel + 1, i, depth, start =>
    match text.drop i with
    | [] => none
    | c :: _ =>
      if c = '{' then
        balancedScan text fuel (i + 1) (depth + 1)
          (if depth = 0 then some i else start)
      else if c = '}' then
        match start with
        | some s =>
          if depth - 1 = 0 then
            match parseJson ⟨(text.drop s).take (i + 1 - s)⟩ with
            | some (.jobj fields) => some fields
            | some _ => balancedScan text fuel (i + 1) 0 (some s)
            | none => balancedScan text fuel (i + 1) 0 none
          else balancedScan text fuel (i + 1) (depth - 1) (some s)
        | none => balancedScan text fuel (i + 1) (depth - 1) none
      else balancedScan text fuel (i + 1) depth start

/-- `\w` of the `re` module (ASCII part). -/
def isWordChar (c : Char) : Bool := c.isAlphanum || c = '_'

/-- `re.sub(r',\s*([}\]])', r'\1', candidate)`: drop a comma (and the
whitespace after it) that directly precedes a closing brace or bracket. -/
def fixTrailingCommasGo : Nat → List Char → List Char
  | 0, rest => rest
  | _ + 1, [] => []
  | fuel + 1, c :: rest =>
    if c = ',' then
      match rest.dropWhile isPyWs with
      | b :: tail =>
        if b = '}' || b = ']' then b :: fixTrailingCommasGo fuel tail
        else c :: fixTrailingCommasGo fuel rest
      | [] => c :: fixTrailingCommasGo fuel rest
    else c :: fixTrailingCommasGo fuel rest

/-- Swap every single quote for a double quote. -/
def swapQuotes (cs : List Char) : List Char :=
  cs.map (fun c => if c = Char.ofNat 39 then '"' else c)

/-- `re.sub(r'X\s*(\w+)\s*:', ...)` for `X ∈ {'{', ','}`: quote an
unquoted key after `trigger`, emitting `repl ++ "key":` and continuing
after the colon. -/
def fixUnquotedKeysGo (trigger : Char) (repl : List Char) : Nat → List Char → List Char
  | 0, rest => rest
  | _ + 1, [] => []
  | fuel + 1, c :: rest =>
    if c = trigger then
      match (rest.dropWhile isPyWs).takeWhile isWordChar,
          ((rest.dropWhile isPyWs).dropWhile isWordChar).dropWhile isPyWs with
      | w :: ws, ':' :: tail =>
        repl ++ ('"' :: (w :: ws) ++ '"' :: ':' :: fixUnquotedKeysGo trigger repl fuel tail)
      | _, _ => c :: fixUnquotedKeysGo trigger repl fuel rest
    else c :: fixUnquotedKeysGo trigger repl fuel rest

/-- Translate the Python literals `True` / `False` / `None` (as whole
words) to their JSON counterparts. -/
def pyLitWord (w : List Char) : List Char :=
  if w = "True".toList then "true".toList
  else if w = "False".toList then "false".toList
  else if w = "None".toList then "null".toList
  else w

/-- `re.sub(r'\bTrue\b', 'true', ...)` and friends: rewrite maximal word
runs through `pyLitWord`. -/
def fixPyLiteralsGo : Nat → List Char → List Char
  | 0, rest => rest
  | _ + 1, [] => []
  | fuel + 1, c :: rest =>
    if isWordChar c then
      pyLitWord (c :: rest.takeWhile isWordChar) ++
        fixPyLiteralsGo fuel (rest.dropWhile isWordChar)
    else c :: fixPyLiteralsGo fuel rest

/-- Index of the first occurrence of a character. -/
def firstIdx (c : Char) : List Char → Option Nat
  | [] => none
  | x :: xs => if x = c then some 0 else (firstIdx c xs).map (· + 1)

/-- Index of the last occurrence of a character. -/
def lastIdx (c : Char) (cs : List Char) : Option Nat :=
  (firstIdx c cs.reverse).map (fun i => cs.length - 1 - i)

/-- Strategy 4 of `_extract_json`: take the slice between the first `{`
and the last `}`, repair trailing commas, quote style, unquoted keys and
Python literals, then parse; accepted only if the result is an object. -/
def extractStrategy4 (text : List Char) : Option (List (String × Json)) :=
  match firstIdx '{' text, lastIdx '}' text with
  | some fb, some lb =>
    if fb < lb then
      let cand0 := (text.drop fb).take (lb + 1 - fb)
      let cand1 := fixTrailingCommasGo (cand0.length + 1) cand0
      let cand2 :=
        if ¬ cand1.contains '"' && cand1.contains (Char.ofNat 39) then swapQuotes cand1
        else cand1
      let cand3 := fixUnquotedKeysGo '{' ['{'] (cand2.length + 1) cand2
      let cand4 := fixUnquotedKeysGo ',' [',', ' '] (cand3.length + 1) cand3
      let cand5 := fixPyLiteralsGo (cand4.length + 1) cand4
      match parseJson ⟨cand5⟩ with
      | some (.jobj fields) => some fields
      | _ => none
    else none
  | _, _ => none

/-- Non-brace character. -/
def nonBrace (c : Char) : Bool := c ≠ '{' && c ≠ '}'

/-- Continuation of a `\{[^{}]*(?:\{[^{}]*\}[^{}]*)*\}` match after the
initial `{[^{}]*`: either close now or consume one depth-one group. -/
def s5Tail : Nat → List Char → List Char → Option (List Char × List Char)
  | 0, _, _ => none
  | fuel + 1, acc, rest =>
    match rest with
    | '}' :: tail => some (acc ++ ['}'], tail)
    | '{' :: tail =>
      match tail.dropWhile nonBrace with
      | '}' :: tail2 =>
        s5Tail fuel
          (acc ++ '{' :: (tail.takeWhile nonBrace ++ '}' :: tail2.takeWhile nonBrace))
          (tail2.dropWhile nonBrace)
      | _ => none
    | _ => none

/-- Try to match `\{[^{}]*(?:\{[^{}]*\}[^{}]*)*\}` at the head of the
input, returning the match and the rest. -/
def s5Match : List Char → Option (List Char × List Char)
  | '{' :: rest =>
    s5Tail (rest.length + 1) ('{' :: rest.takeWhile nonBrace) (rest.dropWhile nonBrace)
  | _ => none

/-- `re.findall` of the strategy-5 pattern: leftmost, non-overlapping. -/
def s5FindAll : Nat → List Char → List (List Char)
  | 0, _ => []
  | _ + 1, [] => []
  | fuel + 1, c :: rest =>
    if c = '{' then
      match s5Match (c :: rest) with
      | some (m, after) => m :: s5FindAll fuel after
      | none => s5FindAll fuel rest
    else s5FindAll fuel rest

/-- Strategy 5 of `_extract_json`: parse each regex match in turn and
accept the first JSON object that contains an `is_verified` key. -/
def s5TryAll : List (List Char) → Option (List (String × Json))
  | [] => none
  | m :: ms =>
    match parseJson ⟨m⟩ with
    | some (.jobj fields) =>
      if fields.any (fun kv => kv.1 == "is_verified") then some fields
      else s5TryAll ms
    | _ => s5TryAll ms

/-- The character filter at the top of `_extract_json`: keep everything
at or above space plus `\n\t\r`, replace other control characters with a
space. -/
def replaceCtrlChar (c : Char) : Char :=
  if c ≥ ' ' || c = '\n' || c = '\t' || c = '\r' then c else ' '

/-- Pre-processing of `_extract_json`: replace control characters, then
strip. -/
def preprocessForExtraction (s : String) : String :=
  pyStrip ⟨s.toList.map replaceCtrlChar⟩

/-- `VerifiedRAGPipeline._extract_json` (verified.py): the five-strategy
pipeline.  Returns the extracted dict (Python returns `dict | None`, so
the payload is the object's fields) and the strategy name. -/
def extractJson (text0 : String) : Option (List (String × Json)) × String :=
  if text0 = "" || pyStrip text0 = "" then (none, "empty_input")
  else
    match parseJson (preprocessForExtraction text0) with
    | some (.jobj fields) => (some fields, "direct_parse")
    | _ =>
      match extractStrategy2 (preprocessForExtraction text0).toList with
      | some (fields, name) => (some fields, name)
      | none =>
        match balancedScan (preprocessForExtraction text0).toList
            ((preprocessForExtraction text0).toList.length + 1) 0 0 none with
        | some fields => (some fields, "balanced_braces")
        | none =>
          match extractStrategy4 (preprocessForExtraction text0).toList with
          | some fields => (some fields, "repaired")
          | none =>
            match s5TryAll (s5FindAll ((preprocessForExtraction text0).toList.length + 1)
                (preprocessForExtraction text0).toList) with
            | some fields => (some fields, "regex_fallback")
            | none => (none, "failed")

theorem pyStripList_nil_forall {cs : List Char} (h : pyStripList cs = []) :
    ∀ c ∈ cs, isPyWs c := by
  intro c hc
  unfold pyStripList at h
  have h1 : (cs.dropWhile isPyWs).reverse.dropWhile isPyWs = [] := by
    have := congrArg List.reverse h
    simpa using this
  have h2 := List.dropWhile_eq_nil_iff.mp h1
  have h3 : ∀ x ∈ cs.dropWhile isPyWs, isPyWs x := fun x hx =>
    h2 x (List.mem_reverse.mpr hx)
  have h4 := List.takeWhile_append_dropWhile isPyWs cs
  rcases List.mem_append.mp (h4 ▸ hc) with h5 | h5
  · exact List.mem_takeWhile_imp h5
  · exact h3 c h5

theorem replaceCtrlChar_ws {c : Char} (hc : isPyWs c = true) :
    isPyWs (replaceCtrlChar c) = true := by
  simp only [isPyWs, Bool.or_eq_true, decide_eq_true_eq] at hc
  rcases hc with ((((h | h) | h) | h) | h) | h <;> subst h <;> decide

theorem pyStripList_nil_of_forall {cs : List Char} (h : ∀ c ∈ cs, isPyWs c) :
    pyStripList cs = [] := by
  unfold pyStripList
  rw [List.dropWhile_eq_nil_iff.mpr h]
  rfl

theorem preprocess_empty_of_strip_empty (text : String)
    (hg : pyStrip text = "") : preprocessForExtraction text = "" := by
  have hl : pyStripList text.toList = [] := congrArg String.data hg
  have hall := pyStripList_nil_forall hl
  have : pyStripList (text.toList.map replaceCtrlChar) = [] :=
    pyStripList_nil_of_forall (by
      intro c hc
      rcases List.mem_map.mp hc with ⟨d, hd, rfl⟩
      exact replaceCtrlChar_ws (hall d hd))
  show pyStrip _ = ""
  unfold pyStrip
  rw [show String.toList ⟨text.toList.map replaceCtrlChar⟩ =
    text.toList.map replaceCtrlChar from rfl, this]

/-- C8 (amended): whenever the extractor's canonicalized input — control
characters replaced, then stripped — parses as a JSON *object*, the
extractor returns exactly that parsed object with strategy
`direct_parse`.  (The unrestricted claim is false: a well-formed JSON
body whose value is not an object is not returned by direct parse, see
the counterexample.) -/
theorem C8_direct_parse (text : String) (fields : List (String × Json))
    (h : parseJson (preprocessForExtraction text) = some (.jobj fields)) :
    extractJson text = (some fields, "direct_parse") := by
  have hguard : ¬ (text = "" || pyStrip text = "") = true := by
    simp only [Bool.or_eq_true, decide_eq_true_eq]
    rintro (hg | hg)
    · rw [hg, show preprocessForExtraction "" = "" from rfl,
        show parseJson "" = none from rfl] at h
      exact Option.noConfusion h
    · rw [preprocess_empty_of_strip_empty text hg,
        show parseJson "" = none from rfl] at h
      exact Option.noConfusion h
  unfold extractJson
  rw [if_neg hguard, h]

/-- C8 witness: a concrete JSON object body is returned by the direct
parse strategy. -/
theorem C8_direct_parse_witness :
    extractJson " \x7b\"is_verified\": true\x7d " =
      (some [("is_verified", .jbool true)], "direct_parse") :=
  C8_direct_parse _ _ rfl

/-- C8 counterexample: `"42"` is a well-formed JSON body (it parses, to
the number 42), but the extractor does not return
`(parse "42", "direct_parse")` — direct parse only accepts objects, every
fallback strategy also fails, and the result is `(none, "failed")`. -/
theorem C8_counterexample :
    parseJson (preprocessForExtraction "42") = some (.jnum "42") ∧
    extractJson "42" = (none, "failed") :=
  ⟨rfl, rfl⟩

/-! ### `VerifiedRAGPipeline._execute_skeptic_scan` (verified.py) -/

/-- Python `"is_verified" in data`. -/
def dictHas (fields : List (String × Json)) (k : String) : Bool :=
  fields.any (fun kv => kv.1 == k)

/-- Python `data[k]` / `data.get(k)`: later duplicate keys win, as in a
dict built by `json.loads`. -/
def dictGet (fields : List (String × Json)) (k : String) : Option Json :=
  (fields.reverse.find? (fun kv => kv.1 == k)).map (fun kv => kv.2)

/-- Python `data[k] = v`. -/
def dictSet (fields : List (String × Json)) (k : String) (v : Json) :
    List (String × Json) :=
  fields.filter (fun kv => kv.1 != k) ++ [(k, v)]

/-- Pydantic validation of the `is_verified: bool` field (after the
source has already coerced string values): accepts booleans and the lax
0/1 numbers. -/
def pydanticBool : Json → Except String Bool
  | .jbool b => .ok b
  | .jnum l =>
    if l = "0" then .ok false
    else if l = "1" then .ok true
    else .error "is_verified: value is not a valid boolean"
  | _ => .error "is_verified: value is not a valid boolean"

/-- Pydantic validation of a `str` field. -/
def pydanticStr : Json → Except String String
  | .jstr s => .ok s
  | _ => .error "value is not a valid string"

/-- Pydantic validation of a `List[str]` field. -/
def pydanticStrList : Json → Except String (List String)
  | .jarr items => items.mapM pydanticStr
  | _ => .error "value is not a valid list"

/-- The `try` block of `_execute_skeptic_scan` after JSON extraction
succeeded: require `is_verified`, coerce a string `is_verified` through
`lower() in ("true", "yes", "1")`, default / listify `hallucinations` and
`missing_evidence`, default `reasoning`, then validate as
`SkepticAuditResult(**data)`.  A raised `ValueError` / pydantic
`ValidationError` is `.error`. -/
def skepticValidate (fields : List (String × Json)) :
    Except String SkepticAuditResult :=
  if ¬ dictHas fields "is_verified" then
    .error "Missing required field is_verified"
  else
    let f1 := match dictGet fields "is_verified" with
      | some (.jstr s) =>
        dictSet fields "is_verified"
          (.jbool (pyLower s = "true" || pyLower s = "yes" || pyLower s = "1"))
      | _ => fields
    let f2 := match dictGet f1 "hallucinations" with
      | none => dictSet f1 "hallucinations" (.jarr [])
      | some .jnull => dictSet f1 "hallucinations" (.jarr [])
      | some (.jstr s) =>
        dictSet f1 "hallucinations" (.jarr (if s = "" then [] else [.jstr s]))
      | some _ => f1
    let f3 := match dictGet f2 "missing_evidence" with
      | none => dictSet f2 "missing_evidence" (.jarr [])
      | some .jnull => dictSet f2 "missing_evidence" (.jarr [])
      | some (.jstr s) =>
        dictSet f2 "missing_evidence" (.jarr (if s = "" then [] else [.jstr s]))
      | some _ => f2
    let f4 := match dictGet f3 "reasoning" with
      | none => dictSet f3 "reasoning" (.jstr "No reasoning provided by skeptic")
      | some .jnull => dictSet f3 "reasoning" (.jstr "No reasoning provided by skeptic")
      | some _ => f3
    do
      let b ← pydanticBool ((dictGet f4 "is_verified").getD .jnull)
      let r ← pydanticStr ((dictGet f4 "reasoning").getD .jnull)
      let hs ← pydanticStrList ((dictGet f4 "hallucinations").getD .jnull)
      let ms ← pydanticStrList ((dictGet f4 "missing_evidence").getD .jnull)
      pure ⟨b, r, hs, ms⟩

/-- The safe-negative result returned when the skeptic's raw response is
empty (`_execute_skeptic_scan`, empty-response branch). -/
def skepticEmptyResult : SkepticAuditResult :=
  ⟨false, "Verification failed: skeptic returned empty response",
   ["Unable to verify - no skeptic response received"], ["Re-run verification"]⟩

/-- The safe-negative result returned by the `except` branch of
`_execute_skeptic_scan` (`str(e)[:100]` truncation included). -/
def skepticParseErrorResult (e : String) : SkepticAuditResult :=
  ⟨false, "Verification failed due to parse error: " ++ pyTake 100 e,
   ["Unable to verify - skeptic response was malformed"],
   ["Re-run verification with valid JSON output"]⟩

/-- Response handling of `VerifiedRAGPipeline._execute_skeptic_scan`
(verified.py, lines 1143-1227), given the raw LLM response: the empty
guard, JSON extraction (`data is None` raises, caught below) and the
fail-safe `except` branches. -/
def executeSkepticScan (response : String) : SkepticAuditResult :=
  if response = "" || pyStrip response = "" then skepticEmptyResult
  else
    match (extractJson response).1 with
    | none =>
      skepticParseErrorResult
        ("No valid JSON object found in response (strategy: " ++
          (extractJson response).2 ++ ")")
    | some fields =>
      match skepticValidate fields with
      | .ok r => r
      | .error e => skepticParseErrorResult e

theorem string_append_ne_empty (s t : String) (hs : s ≠ "") : s ++ t ≠ "" := by
  intro h
  apply hs
  have hd : (s ++ t).data = [] := congrArg String.data h
  rw [String.data_append] at hd
  cases s with
  | mk l =>
    cases l with
    | nil => rfl
    | cons c cs => simp at hd

/-- C3: whenever the skeptic's LLM response is empty, or no JSON object
can be extracted from it, or the extracted object fails audit
validation, `_execute_skeptic_scan` returns (never raises) a
`SkepticAuditResult` with `is_verified = false`, non-empty reasoning,
non-empty hallucinations and non-empty missing_evidence — the loop
continues fail-closed. -/
theorem C3_skeptic_fail_closed (response : String)
    (h : response = "" ∨ pyStrip response = "" ∨
      (extractJson response).1 = none ∨
      (∃ fields e, (extractJson response).1 = some fields ∧
        skepticValidate fields = .error e)) :
    (executeSkepticScan response).is_verified = false ∧
    (executeSkepticScan response).reasoning ≠ "" ∧
    (executeSkepticScan response).hallucinations ≠ [] ∧
    (executeSkepticScan response).missing_evidence ≠ [] := by
  unfold executeSkepticScan
  by_cases hg : (response = "" || pyStrip response = "") = true
  · rw [if_pos hg]
    refine ⟨rfl, by decide, by decide, by decide⟩
  · rw [if_neg hg]
    simp only [Bool.or_eq_true, decide_eq_true_eq, not_or] at hg
    rcases h with h | h | h | h
    · exact absurd h hg.1
    · exact absurd h hg.2
    · rw [h]
      refine ⟨rfl, ?_, List.cons_ne_nil _ _, List.cons_ne_nil _ _⟩
      exact string_append_ne_empty _ _ (by decide)
    · rcases h with ⟨fields, e, hfe, herr⟩
      rw [hfe]
      simp only [herr]
      refine ⟨rfl, ?_, List.cons_ne_nil _ _, List.cons_ne_nil _ _⟩
      exact string_append_ne_empty _ _ (by decide)

/-- C3 witness: a garbage response with no JSON yields the safe-negative
audit with all four properties. -/
theorem C3_skeptic_fail_closed_witness :
    (executeSkepticScan "no json here at all").is_verified = false ∧
    (executeSkepticScan "no json here at all").reasoning ≠ "" ∧
    (executeSkepticScan "no json here at all").hallucinations ≠ [] ∧
    (executeSkepticScan "no json here at all").missing_evidence ≠ [] :=
  C3_skeptic_fail_closed "no json here at all" (Or.inr (Or.inr (Or.inl rfl)))

/-! ### Documents, history injection, reranking, relevance gate
(`pipelines/base.py`, `pipelines/reranking.py`, `pipelines/verified.py`) -/

/-- Property / metadata values carried by documents. -/
inductive PropVal where
  | vstr (s : String)
  | vbool (b : Bool)
  | vint (n : Int)
  | vnum (q : ℚ)
deriving Repr, DecidableEq

/-- Weaviate's `MetadataReturn` object: a dataclass whose attributes
(`rerank_score`, `distance`) can be read with `hasattr`/`getattr` and
assigned. -/
structure WeaviateMeta where
  rerank_score : Option ℚ
  distance : Option ℚ
deriving Repr, DecidableEq

/-- A document's `metadata` slot is either a Weaviate `MetadataReturn`
object (attribute access) or a plain Python dict (key access; attribute
assignment raises `AttributeError`). -/
inductive DocMeta where
  | wobj (m : WeaviateMeta)
  | mdict (kvs : List (String × PropVal))
deriving Repr, DecidableEq

/-- A document in the pipeline's
`{"properties": {...}, "metadata": ...}` shape. -/
structure Doc where
  properties : List (String × PropVal)
  metadata : DocMeta
deriving Repr, DecidableEq

/-- Python `d.get(k)` on a dict with unique keys. -/
def propsGet (props : List (String × PropVal)) (k : String) : Option PropVal :=
  (props.find? (fun kv => kv.1 == k)).map (fun kv => kv.2)

/-- Python truthiness of a property value. -/
def pvTruthy : PropVal → Bool
  | .vstr s => s ≠ ""
  | .vbool b => b
  | .vint n => n ≠ 0
  | .vnum q => q ≠ 0

/-- `create_document` (base.py): the factory enforcing the document
format contract.  Note that its metadata is always a plain dict. -/
def createDocument (content source : String)
    (metadata : Option (List (String × PropVal)))
    (is_history : Bool) (turn_number : Option Int) : Doc :=
  let props := [("content", PropVal.vstr content), ("source", PropVal.vstr source)]
  let props := if is_history then
      props ++ [("is_history", PropVal.vbool true)] ++
        (match turn_number with
         | some n => [("turn_number", PropVal.vint n)]
         | none => [])
    else props
  let meta := metadata.getD []
  let meta := if is_history then
      meta ++ [("is_history", PropVal.vbool true)] ++
        (match turn_number with
         | some n => [("turn_number", PropVal.vint n)]
         | none => [])
    else meta
  ⟨props, .mdict meta⟩

/-- `HISTORY_ANSWER_MAX_CHARS` (base.py, default 300). -/
def historyAnswerMaxChars : Nat := 300

/-- A conversation turn handed to the history injector. -/
structure HistTurn where
  question : String
  answer : String
  turn_number : Option Int
  similarity_score : Option ℚ
deriving Repr, DecidableEq

/-- `BaseRAGPipeline._inject_history_as_documents` (base.py): turn each
history item into a pseudo-document (truncated answer, `is_history`
marker, `conversation_history_turn_{n|unknown}` source — note that
Python's `turn_number or 'unknown'` sends turn 0 to `unknown` too) and
append them to the pool. -/
def injectHistoryAsDocuments (documents : List Doc)
    (relevant_history : List HistTurn) : List Doc :=
  if relevant_history = [] then documents
  else
    documents ++ relevant_history.map (fun turn =>
      let answer := if turn.answer.length > historyAnswerMaxChars then
          pyTake historyAnswerMaxChars turn.answer ++ "..."
        else turn.answer
      createDocument
        ("Previous conversation:\nQ: " ++ turn.question ++ "\nA: " ++ answer)
        ("conversation_history_turn_" ++
          (match turn.turn_number with
           | some n => if n = 0 then "unknown" else toString n
           | none => "unknown"))
        (some [("similarity_score", PropVal.vnum (turn.similarity_score.getD 0))])
        true turn.turn_number)

/-- `validate_document_format` (base.py): in this typed embedding the
document always is a dict with a `properties` dict, so only the
`content`-key check can fail. -/
def validateDocumentFormat (doc : Doc) : Except String Bool :=
  if doc.properties.any (fun kv => kv.1 == "content") then .ok true
  else .error "properties missing content key"

/-- `d["properties"].get("content", "")` (content is produced as a
string everywhere in the pipeline). -/
def docContent (d : Doc) : String :=
  match propsGet d.properties "content" with
  | some (.vstr s) => s
  | _ => ""

/-- The score assignment
`reranked_docs_with_meta[i]["metadata"].rerank_score = normalized_score`
of `_rerank_docs` (reranking.py, line 256): attribute assignment works on
a `MetadataReturn` object but raises `AttributeError` on a plain dict. -/
def setMetaRerankScore : DocMeta → ℚ → Except String DocMeta
  | .wobj m, q => .ok (.wobj { m with rerank_score := some q })
  | .mdict _, _ => .error "AttributeError: dict object has no attribute rerank_score"

/-- Stable insert for descending order (equal keys keep input order when
folded from the right). -/
def insertScoredDesc (x : ℚ × Doc) : List (ℚ × Doc) → List (ℚ × Doc)
  | [] => [x]
  | y :: ys => if x.1 ≥ y.1 then x :: y :: ys else y :: insertScoredDesc x ys

/-- Python's stable `list.sort(key=lambda x: x[0], reverse=True)`. -/
def sortScoredDesc (l : List (ℚ × Doc)) : List (ℚ × Doc) :=
  l.foldr insertScoredDesc []

/-- The `for i, (score, doc) in enumerate(scored_docs[:top_k_final])`
assignment loop of `_rerank_docs`. -/
def assignRerankScores (sigmoid : ℚ → ℚ) :
    List (ℚ × Doc) → Except String (List Doc)
  | [] => .ok []
  | (score, d) :: rest => do
    let m ← setMetaRerankScore d.metadata (sigmoid score)
    let ds ← assignRerankScores sigmoid rest
    pure ({ d with metadata := m } :: ds)

/-- `RerankingPipeline._rerank_docs` (reranking.py): no model or no
input short-circuits to the first `top_k_final`; every document is run
through the format validator (a `ValueError` propagates); empty passage
set yields `[]`; a failed or arity-mismatched prediction falls back to
the first `top_k_final`; otherwise sort by score (descending, stable),
keep `top_k_final` and assign the sigmoid-normalized scores into each
document's metadata.  `scores = none` models `predict` raising; the
numerically safe sigmoid itself is an external real-valued function and
is taken as a parameter. -/
def rerankDocs (hasModel : Bool) (topKFinal : Nat) (sigmoid : ℚ → ℚ)
    (scores : Option (List ℚ)) (docs : List Doc) : Except String (List Doc) :=
  if ¬ hasModel || docs = [] then .ok (docs.take topKFinal)
  else
    match docs.findSome? (fun d =>
        match validateDocumentFormat d with
        | .error e => some e
        | .ok _ => none) with
    | some e => .error e
    | none =>
      if (docs.map docContent).filter (fun p => p ≠ "") = [] then .ok []
      else
        match scores with
        | none => .ok (docs.take topKFinal)
        | some sc =>
          if sc.length ≠ (docs.filter (fun d => docContent d ≠ "")).length then
            .ok (docs.take topKFinal)
          else
            assignRerankScores sigmoid
              ((sortScoredDesc (sc.zip (docs.filter (fun d => docContent d ≠ "")))).take
                topKFinal)

/-- The conversation turn of the C5 failing run. -/
def c5HistoryTurn : HistTurn :=
  ⟨"What is Motown?", "Motown was a Detroit record label.", some 1, some (mkRat 87 100)⟩

/-- C5: the claim is false on the code.  A pseudo-document produced by
the history injector passes the format validator, but when the reranker
model is present and the pseudo-document reaches the top `final_k`, the
score assignment sets the attribute `rerank_score` on its metadata —
which is a plain dict (built by `create_document`), not a Weaviate
`MetadataReturn` object — so `_rerank_docs` raises `AttributeError`
instead of accepting the document. -/
theorem C5_rerank_history_raises :
    (injectHistoryAsDocuments [] [c5HistoryTurn]).all
      (fun d => (validateDocumentFormat d).isOk) = true ∧
    rerankDocs true 5 id (some [mkRat 2 1]) (injectHistoryAsDocuments [] [c5HistoryTurn]) =
      .error "AttributeError: dict object has no attribute rerank_score" :=
  ⟨rfl, rfl⟩

/-- `LOW_RELEVANCE_MESSAGE` (base.py). -/
def lowRelevanceMessage : String :=
  "I checked my knowledge base but couldn\x27t find relevant information for your question. Could you rephrase or provide more context?"

/-- `NO_RELEVANT_DOCS_MESSAGE` (base.py). -/
def noRelevantDocsMessage : String :=
  "No relevant documents found. Use `aleutian populate vectordb <file>` to add documents."

/-- `RERANK_SCORE_THRESHOLD` (base.py, 0.3). -/
def rerankScoreThreshold : ℚ := mkRat 3 10

/-- The local `_get_score` of `_check_relevance_gate` (base.py):
attribute access on a `MetadataReturn`, key access on a dict, default
0.0 (scores are always produced as floats). -/
def gateGetScore (d : Doc) : ℚ :=
  match d.metadata with
  | .wobj m => m.rerank_score.getD 0
  | .mdict kvs =>
    match propsGet kvs "rerank_score" with
    | some (.vnum q) => q
    | _ => 0

/-- The local `_is_history` of `_check_relevance_gate` (base.py):
properties first, then metadata; a `MetadataReturn` object has no
`is_history` attribute. -/
def gateIsHistory (d : Doc) : Bool :=
  if (propsGet d.properties "is_history").elim false pvTruthy then true
  else
    match d.metadata with
    | .wobj _ => false
    | .mdict kvs => (propsGet kvs "is_history").elim false pvTruthy

/-- The `best_score` fold of `_check_relevance_gate`. -/
def gateBest (docs : List Doc) : ℚ :=
  docs.foldl (fun b d => if gateGetScore d > b then gateGetScore d else b) 0

/-- `BaseRAGPipeline._check_relevance_gate` (base.py, lines 1149-1265):
returns `(filtered_docs, passed_gate, message)`.  `enabled` and
`threshold` are the module constants `RELEVANCE_GATE_ENABLED` and
`RELEVANCE_GATE_THRESHOLD` (defaults: on, 0.5), both read from the
environment. -/
def checkRelevanceGate (enabled : Bool) (threshold : ℚ) (reranked_docs : List Doc)
    (has_history : Bool) : List Doc × Bool × Option String :=
  if enabled = false then (reranked_docs, true, none)
  else if reranked_docs = [] then
    if has_history then ([], true, none)
    else ([], false, some lowRelevanceMessage)
  else if gateBest reranked_docs < threshold then
    if has_history then
      match reranked_docs.filter gateIsHistory with
      | [] => (reranked_docs, true, none)
      | history_only => (history_only, true, none)
    else ([], false, some lowRelevanceMessage)
  else
    match reranked_docs.filter (fun d => gateGetScore d ≥ threshold) with
    | [] => (reranked_docs, true, none)
    | filtered => (filtered, true, none)

theorem gateBest_fold_cases (docs : List Doc) (b : ℚ) :
    docs.foldl (fun b d => if gateGetScore d > b then gateGetScore d else b) b = b ∨
    ∃ d ∈ docs,
      docs.foldl (fun b d => if gateGetScore d > b then gateGetScore d else b) b =
        gateGetScore d := by
  induction docs generalizing b with
  | nil => left; rfl
  | cons x xs ih =>
    simp only [List.foldl_cons]
    by_cases hx : gateGetScore x > b
    · rw [if_pos hx]
      rcases ih (gateGetScore x) with h | ⟨d, hd, h⟩
      · right
        exact ⟨x, List.mem_cons_self x xs, h⟩
      · right
        exact ⟨d, List.mem_cons_of_mem _ hd, h⟩
    · rw [if_neg hx]
      rcases ih b with h | ⟨d, hd, h⟩
      · left
        exact h
      · right
        exact ⟨d, List.mem_cons_of_mem _ hd, h⟩

/-- C10: when the gate is enabled and passes (best score at or above the
positive threshold), the returned list is exactly the subset of reranked
documents whose own `rerank_score` is at or above the threshold, and
that subset is non-empty — documents below the threshold are dropped
even though the gate's pass condition examines only the best score. -/
theorem C10_gate_pass_filters (threshold : ℚ) (docs : List Doc) (hh : Bool)
    (hpos : 0 < threshold) (hne : docs ≠ [])
    (hbest : threshold ≤ gateBest docs) :
    checkRelevanceGate true threshold docs hh =
      (docs.filter (fun d => gateGetScore d ≥ threshold), true, none) ∧
    docs.filter (fun d => gateGetScore d ≥ threshold) ≠ [] := by
  have hfil : docs.filter (fun d => gateGetScore d ≥ threshold) ≠ [] := by
    rcases gateBest_fold_cases docs 0 with h | ⟨d, hd, h⟩
    · rw [gateBest, h] at hbest
      exact absurd (lt_of_lt_of_le hpos hbest) (lt_irrefl 0)
    · have hds : gateGetScore d ≥ threshold := by
        rw [gateBest, h] at hbest
        exact hbest
      exact List.ne_nil_of_mem
        (List.mem_filter.mpr ⟨hd, by simpa using hds⟩)
  refine ⟨?_, hfil⟩
  unfold checkRelevanceGate
  rw [if_neg (by decide), if_neg hne, if_neg (not_lt.mpr hbest)]
  rcases hf : docs.filter (fun d => gateGetScore d ≥ threshold) with _ | ⟨a, l⟩
  · exact absurd hf hfil
  · rfl

/-- C10 witness: two documents, scores 0.6 and 0.2 against a 0.5
threshold — the gate passes and returns exactly the above-threshold
subset, which is non-empty. -/
theorem C10_gate_pass_filters_witness :
    checkRelevanceGate true (mkRat 5 10)
      [⟨[("content", .vstr "a"), ("source", .vstr "a.md")],
        .wobj ⟨some (mkRat 6 10), some (mkRat 1 10)⟩⟩,
       ⟨[("content", .vstr "b"), ("source", .vstr "b.md")],
        .wobj ⟨some (mkRat 2 10), some (mkRat 9 10)⟩⟩] false =
      ([⟨[("content", .vstr "a"), ("source", .vstr "a.md")],
         .wobj ⟨some (mkRat 6 10), some (mkRat 1 10)⟩⟩,
        ⟨[("content", .vstr "b"), ("source", .vstr "b.md")],
         .wobj ⟨some (mkRat 2 10), some (mkRat 9 10)⟩⟩].filter
        (fun d => gateGetScore d ≥ mkRat 5 10), true, none) ∧
    ([⟨[("content", .vstr "a"), ("source", .vstr "a.md")],
       .wobj ⟨some (mkRat 6 10), some (mkRat 1 10)⟩⟩,
      ⟨[("content", .vstr "b"), ("source", .vstr "b.md")],
       .wobj ⟨some (mkRat 2 10), some (mkRat 9 10)⟩⟩].filter
      (fun d => gateGetScore d ≥ mkRat 5 10)) ≠ [] :=
  C10_gate_pass_filters (mkRat 5 10)
    [⟨[("content", .vstr "a"), ("source", .vstr "a.md")],
      .wobj ⟨some (mkRat 6 10), some (mkRat 1 10)⟩⟩,
     ⟨[("content", .vstr "b"), ("source", .vstr "b.md")],
      .wobj ⟨some (mkRat 2 10), some (mkRat 9 10)⟩⟩] false
    (by decide) (by decide) (by decide)

/-- `d["properties"].get("source", "Unknown")` (verified.py, source
list assembly). -/
def docSource (d : Doc) : String :=
  match propsGet d.properties "source" with
  | some (.vstr s) => s
  | _ => "Unknown"

/-- `VerifiedRAGPipeline._get_rerank_score` (verified.py): metadata
attribute or key access followed by `_coerce_to_float` with bounds
`[0, 1]` (the string-coercion arm of `_coerce_to_float` is not modelled;
scores are produced numerically). -/
def getRerankScoreChecked (d : Doc) : Option ℚ :=
  match d.metadata with
  | .wobj m =>
    match m.rerank_score with
    | some v => if 0 ≤ v ∧ v ≤ 1 then some v else none
    | none => none
  | .mdict kvs =>
    match propsGet kvs "rerank_score" with
    | some (.vnum q) => if 0 ≤ q ∧ q ≤ 1 then some q else none
    | _ => none

/-- `VerifiedRAGPipeline._get_distance` (verified.py): like the score,
with lower bound 0 only. -/
def getDistanceChecked (d : Doc) : Option ℚ :=
  match d.metadata with
  | .wobj m =>
    match m.distance with
    | some v => if 0 ≤ v then some v else none
    | none => none
  | .mdict kvs =>
    match propsGet kvs "distance" with
    | some (.vnum q) => if 0 ≤ q then some q else none
    | _ => none

/-- `VerifiedRAGPipeline._has_valid_score` (verified.py). -/
def hasValidScore (d : Doc) (threshold : ℚ) : Bool :=
  match getRerankScoreChecked d with
  | some s => s ≥ threshold
  | none => false

/-- Answer, sources and number of LLM generation calls of a verified
run. -/
structure RunOutcome where
  answer : String
  sources : List (String × Option ℚ × Option ℚ)
  llmCalls : Nat
deriving Repr, DecidableEq

/-- `VerifiedRAGPipeline.run` (verified.py) from the relevance gate to
the final answer, over the documents `_rerank_docs` returned: gate check
(early return of the gate message with no sources and no generation),
strict-mode threshold filter (early return of the no-relevant-docs
message), empty-context check, then one optimist draft (`draft` is its
oracle) and the verification loop; the warning suffix is appended when
the loop did not verify.  `llmCalls` counts optimist, skeptic and
refiner generation calls. -/
def verifiedRunAfterRerank (gateEnabled : Bool) (gateThreshold : ℚ)
    (context_docs : List Doc) (has_history strict_mode : Bool) (maxA : Nat)
    (audits : Nat → SkepticAuditResult) (refines : Nat → String)
    (draft : String) : RunOutcome :=
  match checkRelevanceGate gateEnabled gateThreshold context_docs has_history with
  | (docs1, gate_passed, gate_message) =>
    if gate_passed = false ∧ gate_message.isSome then
      ⟨gate_message.getD "", [], 0⟩
    else
      let docs2 :=
        if strict_mode then docs1.filter (fun d => hasValidScore d rerankScoreThreshold)
        else docs1
      if strict_mode ∧ docs2 = [] then ⟨noRelevantDocsMessage, [], 0⟩
      else if docs2 = [] then ⟨noRelevantDocsMessage, [], 0⟩
      else
        let lr := runVerificationLoop maxA audits refines draft
        let final :=
          if lr.state.is_final_verified then lr.state.current_answer
          else lr.state.current_answer ++ "\n\n*(Warning: Verification incomplete)*"
        ⟨final,
         docs2.map (fun d => (docSource d, getDistanceChecked d, getRerankScoreChecked d)),
         1 + lr.skepticCalls + lr.refinerCalls⟩

/-- C7: with the relevance gate enabled, the best rerank score of the
reranked documents strictly below the gate threshold, and no
conversation history supplied, the verified run returns the canonical
low-relevance message verbatim with an empty sources list and performs
zero LLM generation calls (no optimist, skeptic or refiner). -/
theorem C7_low_relevance_refusal (threshold : ℚ) (docs : List Doc)
    (strict_mode : Bool) (maxA : Nat) (audits : Nat → SkepticAuditResult)
    (refines : Nat → String) (draft : String)
    (hne : docs ≠ []) (hbest : gateBest docs < threshold) :
    verifiedRunAfterRerank true threshold docs false strict_mode maxA audits
      refines draft = ⟨lowRelevanceMessage, [], 0⟩ := by
  unfold verifiedRunAfterRerank checkRelevanceGate
  rw [if_neg (by decide), if_neg hne, if_pos hbest]
  rfl

/-- C7 witness: one retrieved document with rerank score 0.2 against the
0.5 default threshold, no history — the run returns the low-relevance
message, no sources, zero LLM calls. -/
theorem C7_low_relevance_refusal_witness :
    verifiedRunAfterRerank true (mkRat 5 10)
      [⟨[("content", .vstr "irrelevant"), ("source", .vstr "doc.md")],
        .wobj ⟨some (mkRat 2 10), some (mkRat 5 10)⟩⟩] false true 3
      (fun _ => ⟨false, "r", ["h"], ["m"]⟩) (fun _ => "refined answer text")
      "draft answer text" = ⟨lowRelevanceMessage, [], 0⟩ :=
  C7_low_relevance_refusal (mkRat 5 10)
    [⟨[("content", .vstr "irrelevant"), ("source", .vstr "doc.md")],
      .wobj ⟨some (mkRat 2 10), some (mkRat 5 10)⟩⟩] true 3
    (fun _ => ⟨false, "r", ["h"], ["m"]⟩) (fun _ => "refined answer text")
    "draft answer text" (by decide) (by decide)

end AleutianRAG
